import Mathlib

/-!
Verification of the go6 object-stream decoder (`debug/go6/reader.go`).

The decoder is shallowly embedded: the byte source (the `bufio.Reader` field
`rd`) is threaded explicitly as a `List Nat` of bytes, Go strings become byte
lists (`GoStr`), machine integers become `Nat`/`Int` with explicit wrap and
sign-extension, and I/O failures become explicit error values.  The opcode and
tag constants (`AXXX`, `ANAME`, ..., `T_OFFSET`, ..., `D_FILE`, ...) are
declared in a part of the package that is not among the sources, so the
decoder is parameterised over them (structure `Consts`); the external
collaborators `goobj.FileSet` and `filepath.Join` are likewise absent and are
modelled from the specification.
-/

namespace Go6

/-- A Go string, as its list of byte values. -/
abbrev GoStr := List Nat

/-- Byte list of an ASCII string literal (convenience for concrete inputs). -/
def str (s : String) : GoStr := s.data.map Char.toNat

/-- The two I/O failures a finite byte stream can produce: `io.EOF` (no byte
available at all) and `io.ErrUnexpectedEOF` (a multi-byte read was cut short). -/
inductive IOErr where
  | eof
  | unexpectedEof
deriving DecidableEq, Repr

/-- `bufio.Reader.ReadByte`: one byte, or `io.EOF`; the byte value is 0 on
failure (Go returns the zero value alongside the error). -/
def readByte : List Nat → Nat × Option IOErr × List Nat
  | [] => (0, some .eof, [])
  | b :: s => (b, none, s)

/-- `io.ReadFull` into an `n`-byte zeroed buffer: on success the `n` bytes
read; reading nothing yields `io.EOF`, a short read `io.ErrUnexpectedEOF`,
and in either failure the returned buffer keeps its zero padding. -/
def readFull (n : Nat) (s : List Nat) : List Nat × Option IOErr × List Nat :=
  if n ≤ s.length then (s.take n, none, s.drop n)
  else if s.isEmpty then (List.replicate n 0, some .eof, [])
  else (s ++ List.replicate (n - s.length) 0, some .unexpectedEof, [])

/-- Little-endian value of a byte list (first byte least significant), as
computed by `binary.LittleEndian.Uint16/32/64` on the read buffer. -/
def leVal : List Nat → Nat
  | [] => 0
  | b :: bs => b + 256 * leVal bs

/-- `read2`: 2-byte little-endian read (applied to the buffer even when the
read failed, as the Go code does). -/
def read2 (s : List Nat) : Nat × Option IOErr × List Nat :=
  let r := readFull 2 s
  (leVal r.1, r.2.1, r.2.2)

/-- `read4`: 4-byte little-endian read. -/
def read4 (s : List Nat) : Nat × Option IOErr × List Nat :=
  let r := readFull 4 s
  (leVal r.1, r.2.1, r.2.2)

/-- `read8`: 8-byte little-endian read. -/
def read8 (s : List Nat) : Nat × Option IOErr × List Nat :=
  let r := readFull 8 s
  (leVal r.1, r.2.1, r.2.2)

/-- `bufio.Reader.ReadString(0)`: bytes up to and including the first NUL; if
the stream ends first, the bytes read so far together with `io.EOF`. -/
def readString0 : List Nat → List Nat × Option IOErr × List Nat
  | [] => ([], some .eof, [])
  | b :: s =>
    if b = 0 then ([0], none, s)
    else
      let r := readString0 s
      (b :: r.1, r.2.1, r.2.2)

/-- Reinterpret a `uint64` as Go's `int64` (two's complement). -/
def int64ofUint64 (n : Nat) : Int :=
  if n < 2 ^ 63 then (n : Int) else (n : Int) - 2 ^ 64

/-- Go's `int64(int32(x))` for a `uint32` value: sign-extension from 32 bits. -/
def int64ofUint32sx (n : Nat) : Int :=
  if n < 2 ^ 31 then (n : Int) else (n : Int) - 2 ^ 32

/-- Modelled from the spec: the opcode, symbol-kind and operand-flag constants
are declared in a file of the go6 package that is not among the sources.  The
spec fixes only their roles: `AXXX`/`ALAST` are the minimum/maximum sentinels
of the opcode space, `ANAME`/`ASIGNAME`/`AHISTORY` are particular opcodes in
between, the `D_` values are symbol-kind/operand-type tags, the `T_` values
are the independent bits of the operand flag byte, and `sconstSize` is the
fixed width of a string-constant payload.  The decoder is parameterised over
an arbitrary assignment. -/
structure Consts where
  AXXX : Nat
  ANAME : Nat
  ASIGNAME : Nat
  AHISTORY : Nat
  ALAST : Nat
  D_NONE : Nat
  D_EXTERN : Nat
  D_STATIC : Nat
  D_FILE : Nat
  D_FCONST : Nat
  D_SCONST : Nat
  T_INDEX : Nat
  T_OFFSET : Nat
  T_SYM : Nat
  T_FCONST : Nat
  T_SCONST : Nat
  T_64 : Nat
  T_TYPE : Nat
  T_GOTYPE : Nat
  sconstSize : Nat

/-- Modelled from the spec: `goobj.FileSet` (an external collaborator, not
among the sources) keeps "an ordered stack of frames, each frame = (file
name, virtual-line at which the frame began)". -/
structure FileSet where
  frames : List (GoStr × Nat)
deriving DecidableEq, Repr

/-- Modelled from the spec: `enter(file_name, virtual_line)` "begins a new
frame for `file_name` starting at `virtual_line`; pushed onto the stack". -/
def FileSet.Enter (fs : FileSet) (f : GoStr) (l : Nat) : FileSet :=
  ⟨(f, l) :: fs.frames⟩

/-- Modelled from the spec: `exit(virtual_line)` "ends the current innermost
frame", returning control to the enclosing one (the stack is popped). -/
def FileSet.Exit (fs : FileSet) (_l : Nat) : FileSet :=
  ⟨fs.frames.tail⟩

/-- Modelled from the spec: `position(virtual_line)` resolves against "the
innermost frame whose start ≤ L", giving that frame's file and the offset
within it (its exact local base is under-specified; no claim depends on it). -/
def FileSet.Position (fs : FileSet) (l : Nat) : Option (GoStr × Nat) :=
  match fs.frames.find? (fun fr => Nat.ble fr.2 l) with
  | some fr => some (fr.1, l - fr.2)
  | none => none

/-- Modelled from the spec: `filepath.Join` from the Go standard library is
not among the sources; per the spec, the Filename Assembler's drain
"concatenates all fragments as path components in the order received", the
separator being `/` (byte 47), and "with no fragments yields an empty path". -/
def Join : List GoStr → GoStr
  | [] => []
  | [f] => f
  | f :: fs => f ++ 47 :: Join fs

/-- The `Addr` operand structure of the go6 package (its declaration file is
not among the sources; the fields and their types are exactly those used by
`Reader.ReadAddr`): type tag, index handle, scale, 64-bit signed offset,
resolved symbol name, IEEE-754 payload bits, fixed-width string-constant
payload, and the secondary Go-type symbol name. -/
structure Addr where
  Typ : Nat
  Index : Nat
  Scale : Nat
  Offset : Int
  Sym : GoStr
  FloatIEEE : Nat
  StringVal : List Nat
  GoType : GoStr
deriving DecidableEq, Repr

/-- The initial operand of `ReadAddr` (reader.go:150):
`Addr{Type: D_NONE, Index: D_NONE, Scale: 0}`, remaining fields zero. -/
def addrInit (c : Consts) : Addr :=
  { Typ := c.D_NONE, Index := c.D_NONE, Scale := 0, Offset := 0, Sym := [],
    FloatIEEE := 0, StringVal := List.replicate c.sconstSize 0, GoType := [] }

/-- The Go zero value of `Addr` (all fields zero/empty), as left in a `Prog`
whose operands were never decoded. -/
def addrZero (c : Consts) : Addr :=
  { Typ := 0, Index := 0, Scale := 0, Offset := 0, Sym := [],
    FloatIEEE := 0, StringVal := List.replicate c.sconstSize 0, GoType := [] }

/-- The decoder state (reader.go:13-21): symbol table, file set, pending
filename fragments, current file name, and the imports mapping.  The byte
source `rd` is threaded separately as an explicit `List Nat`. -/
structure Reader where
  syms : Nat → GoStr
  fset : FileSet
  fnamebuf : List GoStr
  fname : GoStr
  imports : Nat → Option GoStr

/-- `NewReader` (reader.go:23-28): empty symbol slots, empty file set, no
pending fragments, empty current file name, empty imports map. -/
def NewReader : Reader :=
  { syms := fun _ => [], fset := ⟨[]⟩, fnamebuf := [], fname := [],
    imports := fun _ => none }

/-- `Reader.ReadSym` (reader.go:197-200): read one handle byte and return the
current contents of that symbol slot together with the read's error. -/
def Reader.ReadSym (r : Reader) (s : List Nat) : GoStr × Option IOErr × List Nat :=
  let b := readByte s
  (r.syms b.1, b.2.1, b.2.2)

/-- An in-flight operand decode: the operand so far, the current value of the
shared `err` variable, and the remaining stream. -/
abbrev AddrSt := Addr × Option IOErr × List Nat

/-- `ReadAddr` step for `tag&T_INDEX` (reader.go:154-159): read index and
scale bytes; `err` is overwritten by each read (the scale read's error is the
one that survives). -/
def idxStep (c : Consts) (tag : Nat) (x : AddrSt) : AddrSt :=
  if tag &&& c.T_INDEX ≠ 0 then
    let i := readByte x.2.2
    let sc := readByte i.2.2
    ({ x.1 with Index := i.1, Scale := sc.1 }, sc.2.1, sc.2.2)
  else x

/-- `ReadAddr` step for `tag&T_OFFSET` (reader.go:160-168): with `T_64` an
8-byte little-endian signed offset, otherwise a 4-byte value sign-extended
from 32 bits; `err` is overwritten by the read. -/
def offStep (c : Consts) (tag : Nat) (x : AddrSt) : AddrSt :=
  if tag &&& c.T_OFFSET ≠ 0 then
    if tag &&& c.T_64 ≠ 0 then
      let o := read8 x.2.2
      ({ x.1 with Offset := int64ofUint64 o.1 }, o.2.1, o.2.2)
    else
      let o := read4 x.2.2
      ({ x.1 with Offset := int64ofUint32sx o.1 }, o.2.1, o.2.2)
  else x

/-- `ReadAddr` step for `tag&T_SYM` (reader.go:169-171): resolve a symbol
reference; `err` is overwritten. -/
def symStep (c : Consts) (r : Reader) (tag : Nat) (x : AddrSt) : AddrSt :=
  if tag &&& c.T_SYM ≠ 0 then
    let n := r.ReadSym x.2.2
    ({ x.1 with Sym := n.1 }, n.2.1, n.2.2)
  else x

/-- `ReadAddr` constant step (reader.go:176-183): the mutually exclusive
`T_FCONST`/`T_SCONST` cases; the type tag is set and the payload read. -/
def constStep (c : Consts) (tag : Nat) (x : AddrSt) : AddrSt :=
  if tag &&& c.T_FCONST ≠ 0 then
    let o := read8 x.2.2
    ({ x.1 with Typ := c.D_FCONST, FloatIEEE := o.1 }, o.2.1, o.2.2)
  else if tag &&& c.T_SCONST ≠ 0 then
    let o := readFull c.sconstSize x.2.2
    ({ x.1 with Typ := c.D_SCONST, StringVal := o.1 }, o.2.1, o.2.2)
  else x

/-- `ReadAddr` step for `tag&T_TYPE` (reader.go:185-189): one byte becomes
the operand's type tag (overriding any constant kind). -/
def typStep (c : Consts) (tag : Nat) (x : AddrSt) : AddrSt :=
  if tag &&& c.T_TYPE ≠ 0 then
    let t := readByte x.2.2
    ({ x.1 with Typ := t.1 }, t.2.1, t.2.2)
  else x

/-- `ReadAddr` step for `tag&T_GOTYPE` (reader.go:190-192): resolve the
secondary type-symbol reference. -/
def goTypStep (c : Consts) (r : Reader) (tag : Nat) (x : AddrSt) : AddrSt :=
  if tag &&& c.T_GOTYPE ≠ 0 then
    let n := r.ReadSym x.2.2
    ({ x.1 with GoType := n.1 }, n.2.1, n.2.2)
  else x

/-- Tail of `ReadAddr` (reader.go:172-194): the single error check after the
symbol step, then the constant/type/Go-type steps and the final return of
the operand together with whatever `err` holds. -/
def addrFinish (c : Consts) (r : Reader) (tag : Nat) (x : AddrSt) : AddrSt :=
  match x.2.1 with
  | some e => (x.1, some e, x.2.2)
  | none => goTypStep c r tag (typStep c tag (constStep c tag (x.1, none, x.2.2)))

/-- `Reader.ReadAddr` (reader.go:149-195): read the flag byte, then the
index, offset and symbol fields in order (each read overwriting the shared
`err`), check `err` once, then the constant, type and Go-type fields, and
return the operand alongside the final `err`. -/
def Reader.ReadAddr (r : Reader) (c : Consts) (s : List Nat) : AddrSt :=
  let t := readByte s
  addrFinish c r t.1 (symStep c r t.1 (offStep c t.1 (idxStep c t.1 (addrInit c, t.2.1, t.2.2))))

/-- One decoded record (the `Prog` structure of the go6 package; its
declaration file is not among the sources, the fields are exactly those
`ReadProg` assigns): opcode, virtual line, decoded name, the two operands,
and the resolved source position (`none` for Go's zero value). -/
structure Prog where
  Op : Nat
  Line : Nat
  Name : GoStr
  From : Addr
  To : Addr
  Pos : Option (GoStr × Nat)
deriving DecidableEq, Repr

/-- The errors `ReadProg` can return: a raw I/O error propagated verbatim
(reader.go:67-69), `errOpOutOfRange` (reader.go:52-54), and `errIO` with its
`When` field name and its `Err` cause — the cause is an `Option` because the
Go code can place a nil error in `Err` (reader.go:56-63). -/
inductive RErr where
  | raw (e : IOErr)
  | opOutOfRange (op : Nat)
  | tagged (when : GoStr) (cause : Option IOErr)
deriving DecidableEq, Repr

/-- Outcome of one `ReadProg` call: a record, an error, or a runtime abort
(Go panic from an out-of-bounds slice), each with the decoder state and the
remaining stream. -/
inductive ProgOut where
  | ok (p : Prog) (r : Reader) (s : List Nat)
  | err (e : RErr) (r : Reader) (s : List Nat)
  | fault (r : Reader) (s : List Nat)

/-- The decoder state carried by a `ReadProg` outcome. -/
def ProgOut.rdr : ProgOut → Reader
  | .ok _ r _ => r
  | .err _ r _ => r
  | .fault r _ => r

/-- The error carried by a `ReadProg` outcome, if any. -/
def ProgOut.errOf : ProgOut → Option RErr
  | .ok _ _ _ => none
  | .err e _ _ => some e
  | .fault _ _ => none

/-- The `ANAME`/`ASIGNAME` branch of `ReadProg` (reader.go:74-104): the
optional 4-byte signature (signed variant only), then the kind byte, the
handle byte and the NUL-terminated name, the error switch — note every branch
wraps `err`, the name read's error —, the NUL strip, the unconditional
registration `r.syms[sym] = name`, and the kind dispatch in which a `D_FILE`
name has its first byte dropped (`name[1:]`, a runtime abort when `name` is
empty, since Go bounds-checks string slicing) and is appended to `fnamebuf`. -/
def nameCase (c : Consts) (r : Reader) (op : Nat) (s : List Nat) : ProgOut :=
  let sigR : Option IOErr × List Nat :=
    if op = c.ASIGNAME then
      let g := read4 s
      (g.2.1, g.2.2)
    else (none, s)
  match sigR.1 with
  | some e => .err (.tagged (str "SIGNAME op") (some e)) r sigR.2
  | none =>
    let t := readByte sigR.2
    let y := readByte t.2.2
    let bn := readString0 y.2.2
    if t.2.1 ≠ none then .err (.tagged (str "symbol type") bn.2.1) r bn.2.2
    else if y.2.1 ≠ none then .err (.tagged (str "symbol id") bn.2.1) r bn.2.2
    else if bn.2.1 ≠ none then .err (.tagged (str "symbol value") bn.2.1) r bn.2.2
    else
      let name := bn.1.dropLast
      let r1 := { r with syms := fun i => if i = y.1 then name else r.syms i }
      if t.1 = c.D_EXTERN ∨ t.1 = c.D_STATIC then
        .ok { Op := op, Line := 0, Name := name, From := addrZero c, To := addrZero c,
              Pos := none } r1 bn.2.2
      else if t.1 = c.D_FILE then
        if name.isEmpty then .fault r1 bn.2.2
        else
          .ok { Op := op, Line := 0, Name := name, From := addrZero c, To := addrZero c,
                Pos := none }
            { r1 with fnamebuf := r1.fnamebuf ++ [name.drop 1] } bn.2.2
      else
        .ok { Op := op, Line := 0, Name := name, From := addrZero c, To := addrZero c,
              Pos := none } r1 bn.2.2

/-- The generic-instruction tail of `ReadProg` (reader.go:107-146): the line
word and both operands are read before any error check; the error switch
wraps `err` — the line read's error — in all three branches; then the
`AHISTORY` dispatch: drain and join `fnamebuf`, record an import when the
`to` offset is `-1`, otherwise `Enter` when `fname` is nonempty and `Exit`
when it is empty; any other opcode with a nonzero line gets its position
resolved. -/
def instrCase (c : Consts) (r : Reader) (op : Nat) (s : List Nat) : ProgOut :=
  let ln := read4 s
  let fr := r.ReadAddr c ln.2.2
  let toR := r.ReadAddr c fr.2.2
  let s4 := toR.2.2
  if ln.2.1 ≠ none then .err (.tagged (str "line number") ln.2.1) r s4
  else if fr.2.1 ≠ none then .err (.tagged (str "from address") ln.2.1) r s4
  else if toR.2.1 ≠ none then .err (.tagged (str "to address") ln.2.1) r s4
  else
    let line := ln.1
    let p : Prog :=
      { Op := op, Line := line, Name := [], From := fr.1, To := toR.1, Pos := none }
    if op = c.AHISTORY then
      let fname := Join r.fnamebuf
      let r1 := { r with fnamebuf := ([] : List GoStr) }
      if toR.1.Offset = -1 then
        .ok p { r1 with imports := fun l => if l = line then some fname else r1.imports l } s4
      else if r1.fname ≠ [] then
        .ok p { r1 with fset := r1.fset.Enter r1.fname line } s4
      else
        .ok p { r1 with fset := r1.fset.Exit line } s4
    else
      if line ≠ 0 then
        .ok { p with Pos := r.fset.Position line } r s4
      else
        .ok p r s4

/-- `Reader.ReadProg` (reader.go:65-147): read the 2-byte opcode (propagating
its raw read error), reject out-of-range opcodes, dispatch the name
declaration branch for `ANAME`/`ASIGNAME`, and otherwise decode a generic
instruction record. -/
def ReadProg (c : Consts) (r : Reader) (s : List Nat) : ProgOut :=
  let o := read2 s
  match o.2.1 with
  | some e => .err (.raw e) r o.2.2
  | none =>
    if o.1 ≤ c.AXXX ∨ c.ALAST ≤ o.1 then .err (.opOutOfRange o.1) r o.2.2
    else if o.1 = c.ANAME ∨ o.1 = c.ASIGNAME then nameCase c r o.1 o.2.2
    else instrCase c r o.1 o.2.2

/-- Two-byte little-endian encoding of an opcode, for building test streams. -/
def op2 (op : Nat) : List Nat := [op % 256, op / 256]

/-- A concrete constant assignment used by the witnesses and counterexamples:
distinct opcodes inside the sentinels, distinct kind tags, and the flag bits
as distinct powers of two. -/
def c0 : Consts :=
  { AXXX := 0, ANAME := 1, ASIGNAME := 2, AHISTORY := 3, ALAST := 10,
    D_NONE := 0, D_EXTERN := 1, D_STATIC := 2, D_FILE := 3, D_FCONST := 4, D_SCONST := 5,
    T_INDEX := 2, T_OFFSET := 4, T_SYM := 16, T_FCONST := 8, T_SCONST := 32,
    T_64 := 64, T_TYPE := 1, T_GOTYPE := 128, sconstSize := 8 }

/-! Helper lemmas characterising the reads and the decoder branches. -/

theorem readFull_cons2 (a b : Nat) (l : List Nat) :
    readFull 2 (a :: b :: l) = ([a, b], none, l) := by
  unfold readFull
  rw [if_pos (by simp)]
  simp

theorem readFull_cons4 (b0 b1 b2 b3 : Nat) (l : List Nat) :
    readFull 4 (b0 :: b1 :: b2 :: b3 :: l) = ([b0, b1, b2, b3], none, l) := by
  unfold readFull
  rw [if_pos (by simp)]
  simp

theorem readFull_cons8 (b0 b1 b2 b3 b4 b5 b6 b7 : Nat) (l : List Nat) :
    readFull 8 (b0 :: b1 :: b2 :: b3 :: b4 :: b5 :: b6 :: b7 :: l) =
      ([b0, b1, b2, b3, b4, b5, b6, b7], none, l) := by
  unfold readFull
  rw [if_pos (by simp)]
  simp

theorem read2_op2 (op : Nat) (rest : List Nat) :
    read2 (op2 op ++ rest) = (op, none, rest) := by
  show read2 (op % 256 :: op / 256 :: rest) = _
  simp [read2, readFull_cons2, leVal, Nat.mod_add_div]

theorem read4_cons (b0 b1 b2 b3 : Nat) (l : List Nat) :
    read4 (b0 :: b1 :: b2 :: b3 :: l) =
      (leVal [b0, b1, b2, b3], none, l) := by
  simp [read4, readFull_cons4]

theorem read8_cons (b0 b1 b2 b3 b4 b5 b6 b7 : Nat) (l : List Nat) :
    read8 (b0 :: b1 :: b2 :: b3 :: b4 :: b5 :: b6 :: b7 :: l) =
      (leVal [b0, b1, b2, b3, b4, b5, b6, b7], none, l) := by
  simp [read8, readFull_cons8]

theorem readString0_app (n : GoStr) (rest : List Nat) (h : ∀ b ∈ n, b ≠ 0) :
    readString0 (n ++ 0 :: rest) = (n ++ [0], none, rest) := by
  induction n with
  | nil => simp [readString0]
  | cons b bs ih =>
    have hb : b ≠ 0 := h b (by simp)
    have hbs : ∀ x ∈ bs, x ≠ 0 := fun x hx => h x (by simp [hx])
    simp [readString0, hb, ih hbs]

theorem readProg_toName (c : Consts) (r : Reader) (op : Nat) (s : List Nat)
    (h1 : c.AXXX < op) (h2 : op < c.ALAST) (hn : op = c.ANAME ∨ op = c.ASIGNAME) :
    ReadProg c r (op2 op ++ s) = nameCase c r op s := by
  unfold ReadProg
  rw [read2_op2]
  simp only
  rw [if_neg (by omega), if_pos hn]

theorem readProg_toInstr (c : Consts) (r : Reader) (op : Nat) (s : List Nat)
    (h1 : c.AXXX < op) (h2 : op < c.ALAST)
    (hn : ¬(op = c.ANAME ∨ op = c.ASIGNAME)) :
    ReadProg c r (op2 op ++ s) = instrCase c r op s := by
  unfold ReadProg
  rw [read2_op2]
  simp only
  rw [if_neg (by omega), if_neg hn]

theorem nameCase_eq (c : Consts) (r : Reader) (op typ hdl : Nat) (n : GoStr)
    (rest : List Nat) (hsig : op ≠ c.ASIGNAME) (hn : ∀ b ∈ n, b ≠ 0) :
    nameCase c r op (typ :: hdl :: (n ++ 0 :: rest)) =
      (let r1 : Reader := { r with syms := fun i => if i = hdl then n else r.syms i }
       let p : Prog := { Op := op, Line := 0, Name := n, From := addrZero c,
                         To := addrZero c, Pos := none }
       if typ = c.D_EXTERN ∨ typ = c.D_STATIC then .ok p r1 rest
       else if typ = c.D_FILE then
         if n.isEmpty then .fault r1 rest
         else .ok p { r1 with fnamebuf := r.fnamebuf ++ [n.drop 1] } rest
       else .ok p r1 rest) := by
  simp [nameCase, hsig, readByte, readString0_app _ _ hn, List.dropLast_concat]

theorem readAddr_tag0 (c : Consts) (r : Reader) (s : List Nat) :
    r.ReadAddr c (0 :: s) = (addrInit c, none, s) := by
  simp [Reader.ReadAddr, readByte, idxStep, offStep, symStep, addrFinish,
        constStep, typStep, goTypStep, Nat.zero_and]

theorem readAddr_off32 (c : Consts) (r : Reader) (tag b0 b1 b2 b3 : Nat) (rest : List Nat)
    (hI : tag &&& c.T_INDEX = 0) (hO : tag &&& c.T_OFFSET ≠ 0) (h64 : tag &&& c.T_64 = 0)
    (hS : tag &&& c.T_SYM = 0) (hF : tag &&& c.T_FCONST = 0) (hSC : tag &&& c.T_SCONST = 0)
    (hT : tag &&& c.T_TYPE = 0) (hG : tag &&& c.T_GOTYPE = 0) :
    r.ReadAddr c (tag :: b0 :: b1 :: b2 :: b3 :: rest) =
      ({ addrInit c with Offset := int64ofUint32sx (leVal [b0, b1, b2, b3]) }, none, rest) := by
  simp [Reader.ReadAddr, readByte, idxStep, offStep, symStep, addrFinish,
        constStep, typStep, goTypStep, hI, hO, h64, hS, hF, hSC, hT, hG, read4_cons]

theorem readAddr_symOnly (c : Consts) (r : Reader) (tag hdl : Nat) (rest : List Nat)
    (hI : tag &&& c.T_INDEX = 0) (hO : tag &&& c.T_OFFSET = 0) (hS : tag &&& c.T_SYM ≠ 0)
    (hF : tag &&& c.T_FCONST = 0) (hSC : tag &&& c.T_SCONST = 0)
    (hT : tag &&& c.T_TYPE = 0) (hG : tag &&& c.T_GOTYPE = 0) :
    r.ReadAddr c (tag :: hdl :: rest) =
      ({ addrInit c with Sym := r.syms hdl }, none, rest) := by
  simp [Reader.ReadAddr, readByte, idxStep, offStep, symStep, addrFinish,
        constStep, typStep, goTypStep, Reader.ReadSym, hI, hO, hS, hF, hSC, hT, hG]

theorem symStep_off (c : Consts) (r : Reader) (tag : Nat) (x : AddrSt) :
    ((symStep c r tag x).1).Offset = x.1.Offset := by
  unfold symStep
  split <;> rfl

theorem constStep_off (c : Consts) (tag : Nat) (x : AddrSt) :
    ((constStep c tag x).1).Offset = x.1.Offset := by
  unfold constStep
  split <;> [rfl; split <;> rfl]

theorem typStep_off (c : Consts) (tag : Nat) (x : AddrSt) :
    ((typStep c tag x).1).Offset = x.1.Offset := by
  unfold typStep
  split <;> rfl

theorem goTypStep_off (c : Consts) (r : Reader) (tag : Nat) (x : AddrSt) :
    ((goTypStep c r tag x).1).Offset = x.1.Offset := by
  unfold goTypStep
  split <;> rfl

theorem addrFinish_off (c : Consts) (r : Reader) (tag : Nat) (x : AddrSt) :
    ((addrFinish c r tag x).1).Offset = x.1.Offset := by
  unfold addrFinish
  cases hx : x.2.1 with
  | none => rw [goTypStep_off, typStep_off, constStep_off]
  | some e => rfl

theorem instrCase_history_import (c : Consts) (r : Reader)
    (l0 l1 l2 l3 toTag : Nat) (rest : List Nat)
    (hI : toTag &&& c.T_INDEX = 0) (hO : toTag &&& c.T_OFFSET ≠ 0)
    (h64 : toTag &&& c.T_64 = 0) (hS : toTag &&& c.T_SYM = 0)
    (hF : toTag &&& c.T_FCONST = 0) (hSC : toTag &&& c.T_SCONST = 0)
    (hT : toTag &&& c.T_TYPE = 0) (hG : toTag &&& c.T_GOTYPE = 0) :
    instrCase c r c.AHISTORY
        (l0 :: l1 :: l2 :: l3 :: 0 :: toTag :: 255 :: 255 :: 255 :: 255 :: rest) =
      .ok { Op := c.AHISTORY, Line := leVal [l0, l1, l2, l3], Name := [],
            From := addrInit c, To := { addrInit c with Offset := -1 }, Pos := none }
        { r with fnamebuf := [],
                 imports := fun l => if l = leVal [l0, l1, l2, l3] then
                     some (Join r.fnamebuf) else r.imports l } rest := by
  have hsx : int64ofUint32sx (leVal [255, 255, 255, 255]) = -1 := by decide
  simp [instrCase, read4_cons, readAddr_tag0,
        readAddr_off32 c r toTag 255 255 255 255 rest hI hO h64 hS hF hSC hT hG, hsx]

theorem instrCase_history_local_fnamebuf (c : Consts) (r : Reader)
    (l0 l1 l2 l3 : Nat) (rest : List Nat) :
    ((instrCase c r c.AHISTORY (l0 :: l1 :: l2 :: l3 :: 0 :: 0 :: rest)).rdr).fnamebuf
      = [] := by
  simp [instrCase, read4_cons, readAddr_tag0, addrInit]
  split <;> simp [ProgOut.rdr]

theorem readProg_extern_name (c : Consts) (r : Reader) (hdl : Nat) (n : GoStr)
    (rest : List Nat) (h1 : c.AXXX < c.ANAME) (h2 : c.ANAME < c.ALAST)
    (h3 : c.ANAME ≠ c.ASIGNAME) (hn : ∀ b ∈ n, b ≠ 0) :
    ReadProg c r (op2 c.ANAME ++ c.D_EXTERN :: hdl :: (n ++ 0 :: rest)) =
      .ok { Op := c.ANAME, Line := 0, Name := n, From := addrZero c, To := addrZero c,
            Pos := none }
        { r with syms := fun i => if i = hdl then n else r.syms i } rest := by
  rw [readProg_toName c r c.ANAME _ h1 h2 (Or.inl rfl),
      nameCase_eq c r c.ANAME c.D_EXTERN hdl n rest h3 hn]
  simp

theorem nameCase_fname (c : Consts) (r : Reader) (op : Nat) (s : List Nat) :
    ((nameCase c r op s).rdr).fname = r.fname := by
  simp only [nameCase]
  repeat' split
  all_goals simp [ProgOut.rdr]

theorem instrCase_fname (c : Consts) (r : Reader) (op : Nat) (s : List Nat) :
    ((instrCase c r op s).rdr).fname = r.fname := by
  simp only [instrCase]
  repeat' split
  all_goals simp [ProgOut.rdr]

theorem readProg_fname (c : Consts) (r : Reader) (s : List Nat) :
    ((ReadProg c r s).rdr).fname = r.fname := by
  simp only [ReadProg]
  cases h : (read2 s).2.1 with
  | some e => simp [h, ProgOut.rdr]
  | none =>
    simp only [h]
    split
    · simp [ProgOut.rdr]
    · split
      · exact nameCase_fname c r _ _
      · exact instrCase_fname c r _ _

/-! The ten claims. -/

/-- Claim C6: for every opcode value `op` with `op ≤ AXXX` (the minimum
sentinel) or `op ≥ ALAST` (the maximum sentinel), `ReadProg` fails with the
opcode-out-of-range error carrying that opcode value, and consumes exactly
the 2 opcode bytes from the stream. -/
theorem readProg_opcode_out_of_range (c : Consts) (r : Reader) (op : Nat)
    (rest : List Nat) (_hop : op < 65536) (h : op ≤ c.AXXX ∨ c.ALAST ≤ op) :
    ReadProg c r (op2 op ++ rest) = .err (.opOutOfRange op) r rest := by
  simp only [ReadProg, read2_op2]
  rw [if_pos h]

/-- Claim C6 witness: opcode 0 with `c0` (where `AXXX = 0`) is rejected with
the opcode value, leaving the rest of the stream unread. -/
theorem readProg_opcode_out_of_range_wit :
    ReadProg c0 NewReader (op2 0 ++ [7]) = .err (.opOutOfRange 0) NewReader [7] :=
  readProg_opcode_out_of_range c0 NewReader 0 [7] (by decide) (Or.inl (by decide))

/-- Claim C7: with the offset flag set, the operand's offset is the 8-byte
little-endian value read as a signed 64-bit integer when the 64-bit flag is
also set, and otherwise the 4-byte little-endian value sign-extended from 32
bits. -/
theorem readAddr_offset_decoding (c : Consts) (r : Reader) (tag tg : Nat)
    (b0 b1 b2 b3 b4 b5 b6 b7 a0 a1 a2 a3 : Nat) (rest rest2 : List Nat)
    (hI : tag &&& c.T_INDEX = 0) (hO : tag &&& c.T_OFFSET ≠ 0) (h64 : tag &&& c.T_64 ≠ 0)
    (hI2 : tg &&& c.T_INDEX = 0) (hO2 : tg &&& c.T_OFFSET ≠ 0) (h642 : tg &&& c.T_64 = 0) :
    (r.ReadAddr c (tag :: b0 :: b1 :: b2 :: b3 :: b4 :: b5 :: b6 :: b7 :: rest)).1.Offset
        = int64ofUint64 (leVal [b0, b1, b2, b3, b4, b5, b6, b7]) ∧
    (r.ReadAddr c (tg :: a0 :: a1 :: a2 :: a3 :: rest2)).1.Offset
        = int64ofUint32sx (leVal [a0, a1, a2, a3]) := by
  constructor
  · show ((addrFinish c r tag (symStep c r tag (offStep c tag (idxStep c tag
        (addrInit c, none, b0 :: b1 :: b2 :: b3 :: b4 :: b5 :: b6 :: b7 :: rest))))).1).Offset = _
    rw [addrFinish_off, symStep_off]
    simp [idxStep, offStep, hI, hO, h64, read8_cons]
  · show ((addrFinish c r tg (symStep c r tg (offStep c tg (idxStep c tg
        (addrInit c, none, a0 :: a1 :: a2 :: a3 :: rest2))))).1).Offset = _
    rw [addrFinish_off, symStep_off]
    simp [idxStep, offStep, hI2, hO2, h642, read4_cons]

/-- Claim C7 witness: the 8 bytes `01 00 00 00 00 00 00 00` decode to offset
1 (with the 64-bit flag), and the 4 bytes `FF FF FF FF` decode to offset -1
(sign-extended). -/
theorem readAddr_offset_decoding_wit :
    ((NewReader).ReadAddr c0 (68 :: 1 :: 0 :: 0 :: 0 :: 0 :: 0 :: 0 :: 0 :: [])).1.Offset = 1 ∧
    ((NewReader).ReadAddr c0 (4 :: 255 :: 255 :: 255 :: 255 :: [])).1.Offset = -1 := by
  have h := readAddr_offset_decoding c0 NewReader 68 4 1 0 0 0 0 0 0 0 255 255 255 255 [] []
    (by decide) (by decide) (by decide) (by decide) (by decide) (by decide)
  exact ⟨h.1.trans (by decide), h.2.trans (by decide)⟩

/-- Claim C3: a name-declaration record whose kind is the file marker and
whose decoded (NUL-stripped) name is empty makes `name[1:]` go out of
bounds, so decoding aborts (returns neither a record nor an error); the
symbol slot has already been overwritten when the abort happens. -/
theorem readProg_empty_file_name_aborts (c : Consts) (r : Reader) (hdl : Nat)
    (rest : List Nat) (h1 : c.AXXX < c.ANAME) (h2 : c.ANAME < c.ALAST)
    (h3 : c.ANAME ≠ c.ASIGNAME) (hD1 : c.D_FILE ≠ c.D_EXTERN)
    (hD2 : c.D_FILE ≠ c.D_STATIC) :
    ReadProg c r (op2 c.ANAME ++ c.D_FILE :: hdl :: 0 :: rest) =
      .fault { r with syms := fun i => if i = hdl then [] else r.syms i } rest := by
  have h := nameCase_eq c r c.ANAME c.D_FILE hdl [] rest h3 (by simp)
  simp only [List.nil_append] at h
  rw [readProg_toName c r c.ANAME _ h1 h2 (Or.inl rfl), h]
  simp [hD1, hD2]

/-- Claim C3 witness: a concrete `D_FILE` record carrying just the NUL
terminator aborts decoding. -/
theorem readProg_empty_file_name_aborts_wit :
    ReadProg c0 NewReader (op2 c0.ANAME ++ c0.D_FILE :: 7 :: 0 :: [5]) =
      .fault { NewReader with syms := fun i => if i = 7 then [] else NewReader.syms i } [5] :=
  readProg_empty_file_name_aborts c0 NewReader 7 [5] (by decide) (by decide) (by decide)
    (by decide) (by decide)

/-- Claim C2 counterexample: a file-marker name IS registered into the
symbol-table slot given by its handle — decoding the `D_FILE` record with
handle 7 and name "/ab" leaves slot 7 holding "/ab", not its previous empty
contents, refuting "a file-marker name is not registered into the Symbol
Table slot given by its handle". -/
theorem file_marker_registered_cex :
    ((ReadProg c0 NewReader [1, 0, 3, 7, 47, 97, 98, 0]).rdr).syms 7 = str "/ab" ∧
    str "/ab" ≠ ([] : GoStr) := by decide

/-- Claim C2 (amended): a file-marker (`D_FILE`) name has its first character
dropped and the remainder appended to the Filename Assembler, and in
addition the full name is registered into the Symbol Table slot given by its
handle (registration happens unconditionally before the kind dispatch). -/
theorem readProg_file_marker_registers_and_appends (c : Consts) (r : Reader)
    (hdl : Nat) (n : GoStr) (rest : List Nat)
    (h1 : c.AXXX < c.ANAME) (h2 : c.ANAME < c.ALAST) (h3 : c.ANAME ≠ c.ASIGNAME)
    (hD1 : c.D_FILE ≠ c.D_EXTERN) (hD2 : c.D_FILE ≠ c.D_STATIC)
    (hn : ∀ b ∈ n, b ≠ 0) (hne : n ≠ []) :
    ReadProg c r (op2 c.ANAME ++ c.D_FILE :: hdl :: (n ++ 0 :: rest)) =
      .ok { Op := c.ANAME, Line := 0, Name := n, From := addrZero c, To := addrZero c,
            Pos := none }
        { r with syms := fun i => if i = hdl then n else r.syms i,
                 fnamebuf := r.fnamebuf ++ [n.drop 1] } rest := by
  rw [readProg_toName c r c.ANAME _ h1 h2 (Or.inl rfl),
      nameCase_eq c r c.ANAME c.D_FILE hdl n rest h3 hn]
  simp [hD1, hD2, hne]

/-- Claim C2 witness: registering "/ab" as a file marker at handle 7 both
fills slot 7 and appends "ab" to the assembler. -/
theorem readProg_file_marker_registers_and_appends_wit :
    ReadProg c0 NewReader (op2 c0.ANAME ++ c0.D_FILE :: 7 :: (str "/ab" ++ 0 :: [])) =
      .ok { Op := c0.ANAME, Line := 0, Name := str "/ab", From := addrZero c0,
            To := addrZero c0, Pos := none }
        { NewReader with syms := fun i => if i = 7 then str "/ab" else NewReader.syms i,
                         fnamebuf := NewReader.fnamebuf ++ [(str "/ab").drop 1] } [] :=
  readProg_file_marker_registers_and_appends c0 NewReader 7 (str "/ab") [] (by decide)
    (by decide) (by decide) (by decide) (by decide) (by decide) (by decide)

/-- Claim C9: registering a name at a handle overwrites the slot
unconditionally (last writer wins), and resolving a handle returns the
slot's current contents without error — the empty string if never written;
a later operand's symbol reference resolves to the name registered by the
most recent earlier declaration for that handle. -/
theorem symbol_table_register_resolve (c : Consts) (r : Reader) (hdl : Nat)
    (n1 n2 : GoStr) (s : List Nat) (tagS : Nat)
    (h1 : c.AXXX < c.ANAME) (h2 : c.ANAME < c.ALAST) (h3 : c.ANAME ≠ c.ASIGNAME)
    (_hh : hdl < 256) (hn1 : ∀ b ∈ n1, b ≠ 0) (hn2 : ∀ b ∈ n2, b ≠ 0)
    (hI : tagS &&& c.T_INDEX = 0) (hO : tagS &&& c.T_OFFSET = 0)
    (hS : tagS &&& c.T_SYM ≠ 0) (hF : tagS &&& c.T_FCONST = 0)
    (hSC : tagS &&& c.T_SCONST = 0) (hT : tagS &&& c.T_TYPE = 0)
    (hG : tagS &&& c.T_GOTYPE = 0) :
    Reader.ReadSym ((ReadProg c r (op2 c.ANAME ++ c.D_EXTERN :: hdl :: (n1 ++ 0 :: []))).rdr)
        (hdl :: s) = (n1, none, s) ∧
    Reader.ReadSym ((ReadProg c
        ((ReadProg c r (op2 c.ANAME ++ c.D_EXTERN :: hdl :: (n1 ++ 0 :: []))).rdr)
        (op2 c.ANAME ++ c.D_EXTERN :: hdl :: (n2 ++ 0 :: []))).rdr) (hdl :: s)
      = (n2, none, s) ∧
    Reader.ReadSym NewReader (hdl :: s) = ([], none, s) ∧
    ((Reader.ReadAddr ((ReadProg c r (op2 c.ANAME ++ c.D_EXTERN :: hdl :: (n1 ++ 0 :: []))).rdr)
        c (tagS :: hdl :: s)).1).Sym = n1 := by
  have e1 := readProg_extern_name c r hdl n1 [] h1 h2 h3 hn1
  refine ⟨?_, ?_, ?_, ?_⟩
  · rw [e1]
    simp [ProgOut.rdr, Reader.ReadSym, readByte]
  · rw [e1]
    simp only [ProgOut.rdr]
    rw [readProg_extern_name c _ hdl n2 [] h1 h2 h3 hn2]
    simp [ProgOut.rdr, Reader.ReadSym, readByte]
  · simp [Reader.ReadSym, readByte, NewReader]
  · rw [e1]
    simp only [ProgOut.rdr]
    rw [readAddr_symOnly c _ tagS hdl s hI hO hS hF hSC hT hG]
    simp

/-- Claim C9 witness: registering "foo" then "bar" at handle 7 resolves to
"bar"; an unregistered handle resolves to the empty name; an operand symbol
reference after the first registration resolves to "foo". -/
theorem symbol_table_register_resolve_wit :
    Reader.ReadSym ((ReadProg c0 NewReader (op2 c0.ANAME ++ c0.D_EXTERN :: 7 :: (str "foo" ++ 0 :: []))).rdr)
        (7 :: []) = (str "foo", none, []) ∧
    Reader.ReadSym ((ReadProg c0
        ((ReadProg c0 NewReader (op2 c0.ANAME ++ c0.D_EXTERN :: 7 :: (str "foo" ++ 0 :: []))).rdr)
        (op2 c0.ANAME ++ c0.D_EXTERN :: 7 :: (str "bar" ++ 0 :: []))).rdr) (7 :: [])
      = (str "bar", none, []) ∧
    Reader.ReadSym NewReader (7 :: []) = ([], none, []) ∧
    ((Reader.ReadAddr ((ReadProg c0 NewReader (op2 c0.ANAME ++ c0.D_EXTERN :: 7 :: (str "foo" ++ 0 :: []))).rdr)
        c0 (16 :: 7 :: [])).1).Sym = str "foo" :=
  symbol_table_register_resolve c0 NewReader 7 (str "foo") (str "bar") [] 16 (by decide)
    (by decide) (by decide) (by decide) (by decide) (by decide) (by decide) (by decide)
    (by decide) (by decide) (by decide) (by decide) (by decide)

/-- Claim C8: a history record whose `to` offset is -1 records the assembled
filename in the imports mapping under the record's virtual line, leaves the
frame stack unchanged, and the Filename Assembler is drained — also by a
non-import history record. -/
theorem readProg_import_history (c : Consts) (r : Reader)
    (l0 l1 l2 l3 toTag : Nat) (rest rest2 : List Nat)
    (hH1 : c.AXXX < c.AHISTORY) (hH2 : c.AHISTORY < c.ALAST)
    (hH3 : c.AHISTORY ≠ c.ANAME) (hH4 : c.AHISTORY ≠ c.ASIGNAME)
    (hI : toTag &&& c.T_INDEX = 0) (hO : toTag &&& c.T_OFFSET ≠ 0)
    (h64 : toTag &&& c.T_64 = 0) (hS : toTag &&& c.T_SYM = 0)
    (hF : toTag &&& c.T_FCONST = 0) (hSC : toTag &&& c.T_SCONST = 0)
    (hT : toTag &&& c.T_TYPE = 0) (hG : toTag &&& c.T_GOTYPE = 0) :
    ReadProg c r (op2 c.AHISTORY ++ l0 :: l1 :: l2 :: l3 :: 0 :: toTag :: 255 :: 255 :: 255 :: 255 :: rest) =
      .ok { Op := c.AHISTORY, Line := leVal [l0, l1, l2, l3], Name := [],
            From := addrInit c, To := { addrInit c with Offset := -1 }, Pos := none }
        { r with fnamebuf := [],
                 imports := fun l => if l = leVal [l0, l1, l2, l3] then
                     some (Join r.fnamebuf) else r.imports l } rest ∧
    ((ReadProg c r (op2 c.AHISTORY ++ l0 :: l1 :: l2 :: l3 :: 0 :: toTag :: 255 :: 255 :: 255 :: 255 :: rest)).rdr).fset
      = r.fset ∧
    ((ReadProg c r (op2 c.AHISTORY ++ l0 :: l1 :: l2 :: l3 :: 0 :: 0 :: rest2)).rdr).fnamebuf = [] := by
  have hdisp : ¬(c.AHISTORY = c.ANAME ∨ c.AHISTORY = c.ASIGNAME) := by
    rintro (h | h)
    · exact hH3 h
    · exact hH4 h
  have himp := instrCase_history_import c r l0 l1 l2 l3 toTag rest hI hO h64 hS hF hSC hT hG
  refine ⟨?_, ?_, ?_⟩
  · rw [readProg_toInstr c r c.AHISTORY _ hH1 hH2 hdisp, himp]
  · rw [readProg_toInstr c r c.AHISTORY _ hH1 hH2 hdisp, himp]
    rfl
  · rw [readProg_toInstr c r c.AHISTORY _ hH1 hH2 hdisp]
    exact instrCase_history_local_fnamebuf c r l0 l1 l2 l3 rest2

/-- Claim C8 witness: an import history record at virtual line 5 with the
assembler holding "fmt" yields imports 5 = "fmt", an unchanged (empty) frame
stack, and a drained assembler. -/
theorem readProg_import_history_wit :
    (((ReadProg c0 { NewReader with fnamebuf := [str "fmt"] }
        (op2 c0.AHISTORY ++ 5 :: 0 :: 0 :: 0 :: 0 :: 4 :: 255 :: 255 :: 255 :: 255 :: [])).rdr).imports 5
      = some (str "fmt")) ∧
    ((ReadProg c0 { NewReader with fnamebuf := [str "fmt"] }
        (op2 c0.AHISTORY ++ 5 :: 0 :: 0 :: 0 :: 0 :: 4 :: 255 :: 255 :: 255 :: 255 :: [])).rdr).fset
      = NewReader.fset ∧
    ((ReadProg c0 { NewReader with fnamebuf := [str "fmt"] }
        (op2 c0.AHISTORY ++ 5 :: 0 :: 0 :: 0 :: 0 :: 4 :: 255 :: 255 :: 255 :: 255 :: [])).rdr).fnamebuf
      = [] := by
  have h := readProg_import_history c0 { NewReader with fnamebuf := [str "fmt"] } 5 0 0 0 4 [] []
    (by decide) (by decide) (by decide) (by decide) (by decide) (by decide) (by decide)
    (by decide) (by decide) (by decide) (by decide) (by decide)
  refine ⟨?_, h.2.1, ?_⟩
  · rw [h.1]
    simp [ProgOut.rdr, Join, leVal]
  · rw [h.1]
    rfl

/-- Claim C10: the Filename Assembler's drain joins the pushed fragments as
path components in the order received ("a", "b.go" yield "a/b.go") and
clears the fragment list, so an immediately following drain with no new
fragments — and any drain on an empty assembler — yields the empty path. -/
theorem fnamebuf_drain_join (c : Consts) (r : Reader)
    (l0 l1 l2 l3 m0 m1 m2 m3 toTag : Nat)
    (hH1 : c.AXXX < c.AHISTORY) (hH2 : c.AHISTORY < c.ALAST)
    (hH3 : c.AHISTORY ≠ c.ANAME) (hH4 : c.AHISTORY ≠ c.ASIGNAME)
    (hI : toTag &&& c.T_INDEX = 0) (hO : toTag &&& c.T_OFFSET ≠ 0)
    (h64 : toTag &&& c.T_64 = 0) (hS : toTag &&& c.T_SYM = 0)
    (hF : toTag &&& c.T_FCONST = 0) (hSC : toTag &&& c.T_SCONST = 0)
    (hT : toTag &&& c.T_TYPE = 0) (hG : toTag &&& c.T_GOTYPE = 0) :
    Join [str "a", str "b.go"] = str "a/b.go" ∧
    Join ([] : List GoStr) = [] ∧
    ((ReadProg c r (op2 c.AHISTORY ++ l0 :: l1 :: l2 :: l3 :: 0 :: toTag :: 255 :: 255 :: 255 :: 255 :: [])).rdr).imports
        (leVal [l0, l1, l2, l3]) = some (Join r.fnamebuf) ∧
    ((ReadProg c r (op2 c.AHISTORY ++ l0 :: l1 :: l2 :: l3 :: 0 :: toTag :: 255 :: 255 :: 255 :: 255 :: [])).rdr).fnamebuf
      = [] ∧
    ((ReadProg c
        ((ReadProg c r (op2 c.AHISTORY ++ l0 :: l1 :: l2 :: l3 :: 0 :: toTag :: 255 :: 255 :: 255 :: 255 :: [])).rdr)
        (op2 c.AHISTORY ++ m0 :: m1 :: m2 :: m3 :: 0 :: toTag :: 255 :: 255 :: 255 :: 255 :: [])).rdr).imports
        (leVal [m0, m1, m2, m3]) = some [] := by
  have hdisp : ¬(c.AHISTORY = c.ANAME ∨ c.AHISTORY = c.ASIGNAME) := by
    rintro (h | h)
    · exact hH3 h
    · exact hH4 h
  have h1 := instrCase_history_import c r l0 l1 l2 l3 toTag [] hI hO h64 hS hF hSC hT hG
  refine ⟨by decide, rfl, ?_, ?_, ?_⟩
  · rw [readProg_toInstr c r c.AHISTORY _ hH1 hH2 hdisp, h1]
    simp [ProgOut.rdr]
  · rw [readProg_toInstr c r c.AHISTORY _ hH1 hH2 hdisp, h1]
    rfl
  · rw [readProg_toInstr c r c.AHISTORY _ hH1 hH2 hdisp, h1]
    simp only [ProgOut.rdr]
    rw [readProg_toInstr c _ c.AHISTORY _ hH1 hH2 hdisp,
        instrCase_history_import c _ m0 m1 m2 m3 toTag [] hI hO h64 hS hF hSC hT hG]
    simp [ProgOut.rdr, Join]

/-- Claim C10 witness: fragments "a" then "b.go" drain to "a/b.go" at line 5,
the buffer is cleared, and a second drain at line 6 stores the empty path. -/
theorem fnamebuf_drain_join_wit :
    Join [str "a", str "b.go"] = str "a/b.go" ∧
    Join ([] : List GoStr) = [] ∧
    ((ReadProg c0 { NewReader with fnamebuf := [str "a", str "b.go"] }
        (op2 c0.AHISTORY ++ 5 :: 0 :: 0 :: 0 :: 0 :: 4 :: 255 :: 255 :: 255 :: 255 :: [])).rdr).imports
        (leVal [5, 0, 0, 0]) = some (Join [str "a", str "b.go"]) ∧
    ((ReadProg c0 { NewReader with fnamebuf := [str "a", str "b.go"] }
        (op2 c0.AHISTORY ++ 5 :: 0 :: 0 :: 0 :: 0 :: 4 :: 255 :: 255 :: 255 :: 255 :: [])).rdr).fnamebuf
      = [] ∧
    ((ReadProg c0
        ((ReadProg c0 { NewReader with fnamebuf := [str "a", str "b.go"] }
          (op2 c0.AHISTORY ++ 5 :: 0 :: 0 :: 0 :: 0 :: 4 :: 255 :: 255 :: 255 :: 255 :: [])).rdr)
        (op2 c0.AHISTORY ++ 6 :: 0 :: 0 :: 0 :: 0 :: 4 :: 255 :: 255 :: 255 :: 255 :: [])).rdr).imports
        (leVal [6, 0, 0, 0]) = some [] :=
  fnamebuf_drain_join c0 { NewReader with fnamebuf := [str "a", str "b.go"] } 5 0 0 0 6 0 0 0 4
    (by decide) (by decide) (by decide) (by decide) (by decide) (by decide) (by decide)
    (by decide) (by decide) (by decide) (by decide) (by decide)

/-- Claim C4 counterexample: with flag byte 20 (offset and symbol flags set
under `c0`) and a single remaining byte, the first failing read is the 4-byte
offset read (`io.ErrUnexpectedEOF`), yet the error surfaced by the operand
decoder is the later symbol read's `io.EOF` — the shared error variable is
overwritten by each read, so it is not the first error that is surfaced. -/
theorem readAddr_last_error_cex :
    ((NewReader).ReadAddr c0 [20, 9]).2.1 = some IOErr.eof ∧
    (read4 [9]).2.1 = some IOErr.unexpectedEof ∧
    some IOErr.eof ≠ some IOErr.unexpectedEof := by decide

/-- Claim C4 (amended): if a per-field read inside the operand decoder fails,
`ReadAddr` returns the partially filled operand together with an error, but
the error surfaced is the most recent one (each read overwrites the shared
error variable, which is checked only after the symbol step and at the end):
when the 32-bit offset read is truncated (`io.ErrUnexpectedEOF`) and the
following symbol read then fails with `io.EOF`, the call aborts at the
checkpoint returning `io.EOF` and the operand holding the offset decoded
from the zero-padded partial buffer and the symbol resolved from handle 0. -/
theorem readAddr_error_abort_last (c : Consts) (r : Reader) (tag b : Nat)
    (hI : tag &&& c.T_INDEX = 0) (hO : tag &&& c.T_OFFSET ≠ 0)
    (h64 : tag &&& c.T_64 = 0) (hS : tag &&& c.T_SYM ≠ 0) :
    r.ReadAddr c [tag, b] =
      ({ addrInit c with Offset := int64ofUint32sx b, Sym := r.syms 0 },
        some IOErr.eof, []) ∧
    (read4 [b]).2.1 = some IOErr.unexpectedEof := by
  constructor
  · simp [Reader.ReadAddr, readByte, idxStep, offStep, symStep, addrFinish,
          Reader.ReadSym, read4, readFull, leVal, hI, hO, h64, hS]
  · simp [read4, readFull]

/-- Claim C4 witness: the amended behaviour at the counterexample input. -/
theorem readAddr_error_abort_last_wit :
    (NewReader).ReadAddr c0 [20, 9] =
      ({ addrInit c0 with Offset := int64ofUint32sx 9, Sym := NewReader.syms 0 },
        some IOErr.eof, []) ∧
    (read4 [9]).2.1 = some IOErr.unexpectedEof :=
  readAddr_error_abort_last c0 NewReader 20 9 (by decide) (by decide) (by decide) (by decide)

/-- Claim C5 (code bug): on the stream holding a generic opcode, a complete
line-number word and nothing else, the from-address read fails with `io.EOF`,
but the error returned by `ReadProg` wraps `err` — the line-number read's
error variable, which is `nil` at that point — as the cause, not the `io.EOF`
that actually occurred on the from-address read. -/
theorem readProg_from_address_error_nil_cause :
    (ReadProg c0 NewReader [4, 0, 0, 0, 0, 0]).errOf
        = some (RErr.tagged (str "from address") none) ∧
    ((NewReader).ReadAddr c0 []).2.1 = some IOErr.eof ∧
    (none : Option IOErr) ≠ some IOErr.eof := by decide

/-- Claim C1 (code bug): the current-file-name field `fname` is never
assigned by `ReadProg` (first conjunct: it is invariant across every call,
from every state, on every stream), so the `Enter` branch of the history
handling is unreachable; concretely, decoding a file-marker declaration
(`D_FILE`, name "/x") and then a history record with `to` offset 0 from a
state whose frame stack holds one frame pops that frame (`Exit`) instead of
pushing one (`Enter`), even though the file marker left "x" in the
assembler. -/
theorem history_after_file_marker_takes_exit :
    (∀ (c : Consts) (r : Reader) (s : List Nat), ((ReadProg c r s).rdr).fname = r.fname) ∧
    ((ReadProg c0 { NewReader with fset := ⟨[(str "outer", 1)]⟩ }
        [1, 0, 3, 2, 47, 120, 0]).rdr).fnamebuf = [str "x"] ∧
    ((ReadProg c0 { NewReader with fset := ⟨[(str "outer", 1)]⟩ }
        [1, 0, 3, 2, 47, 120, 0]).rdr).fname = [] ∧
    ((ReadProg c0 ((ReadProg c0 { NewReader with fset := ⟨[(str "outer", 1)]⟩ }
        [1, 0, 3, 2, 47, 120, 0]).rdr) [3, 0, 9, 0, 0, 0, 0, 0]).rdr).fset.frames = [] ∧
    (FileSet.Enter ⟨[(str "outer", 1)]⟩ (str "x") 9).frames ≠ [] := by
  refine ⟨readProg_fname, by decide, by decide, by decide, by decide⟩

end Go6
